import Mathlib

/-!
Verification of the AMC booking repository's Booking & Allocation Engine
against its specification.

The repository's files under src/contexts are a client-side data layer over
an external Data Store (Supabase): they perform reads, inserts, updates and
deletes with local-snapshot maintenance, and implement the identifier
allocator and the state synchronizer directly.  The business-rule components
of the specification (Conflict Detector, Token Ledger operations, Lifecycle
state machine, and the Data Store's referential constraint on category
deletion) live in repository code that is not included here (UI components
and database migrations/triggers; the README places conflict detection in
the calendar components and token accounting in database triggers).  Those
parts are modelled from the spec below, each marked with a doc comment
starting with the words Modelled from the spec.

All code-side definitions are shallow embeddings of the TypeScript in
src/contexts/MachineContext.tsx, src/contexts/BookingContext.tsx and
src/contexts/AuthContext.tsx, keeping the source's names and semantics.
Times are nonnegative integers counting slots; machine integers do not
overflow in the source (JavaScript numbers on small counts), so Nat/Int are
used directly.
-/

/-! ## Data model

Record types mirror the rows the source manipulates.  Field names follow
the source (snake case column names); the booking interval is half-open
[startTime, endTime) as in the spec ("start, end — half-open, non-empty");
the fields are named startTime/endTime because end is a reserved word.
-/

inductive MachineStatus where
  | available
  | inUse
  | maintenance
  | retired
deriving DecidableEq, Repr

inductive BookingMode where
  | weeklyPlanning
  | sameWeekExceptional
  | monthlyProvisional
deriving DecidableEq, Repr

inductive BookingStatus where
  | pending
  | approved
  | rejected
  | cancelled
  | completed
deriving DecidableEq, Repr

inductive Role where
  | requester
  | facilityAdmin
  | institutionAdmin
deriving DecidableEq, Repr

structure MachineType where
  id : String
  name : String
  cost_per_slot : Nat
  tags : List String
deriving DecidableEq, Repr

structure Machine where
  id : String
  machine_type_id : String
  status : MachineStatus
deriving DecidableEq, Repr

structure User where
  id : String
  role : Role
  tokens_given : Nat
  tokens_consumed : Nat
  tokens_remaining : Nat
deriving DecidableEq, Repr

structure Booking where
  id : String
  user_id : String
  machine_id : String
  startTime : Nat
  endTime : Nat
  mode : BookingMode
  status : BookingStatus
  cost : Nat
  created_at : Nat
  justification : String
deriving DecidableEq, Repr

structure AuditEntry where
  actor : String
  action : String
  targetId : String
deriving DecidableEq, Repr

/-! ## Identifier Allocator (MachineContext.tsx, generateMachineId)

The source computes the next machine id from the in-memory machines list:

  const machinesInType = machines.filter(m => m.machine_type_id === machineTypeId);
  const maxMachineNum = machinesInType.reduce((max, machine) => {
    const machineNum = parseInt(machine.id.substring(4));
    return machineNum > max ? machineNum : max;
  }, 0);
  return machineTypeId + M + String(maxMachineNum + 1).padStart(2, '0');

parseIntJS embeds JavaScript parseInt with radix 10: skip leading spaces,
optional sign, then the maximal run of leading digits; no digits gives NaN,
which the reduce ignores because NaN > max is false.  dropStr embeds
String.prototype.substring(n) (character based).  padStart2 embeds
padStart(2, '0'), which never truncates.
-/

def takeDigits : List Char → List Char
  | [] => []
  | c :: cs => if c.isDigit then c :: takeDigits cs else []

def digitsToNat (ds : List Char) : Nat :=
  ds.foldl (fun acc c => acc * 10 + (c.toNat - 48)) 0

def parseIntJS (s : String) : Option Int :=
  match s.data.dropWhile (fun c => c = ' ') with
  | [] => none
  | c :: rest =>
    if c = '-' then
      match takeDigits rest with
      | [] => none
      | ds => some (-(digitsToNat ds : Int))
    else if c = '+' then
      match takeDigits rest with
      | [] => none
      | ds => some ((digitsToNat ds : Int))
    else
      match takeDigits (c :: rest) with
      | [] => none
      | ds => some ((digitsToNat ds : Int))

def dropStr (s : String) (n : Nat) : String :=
  String.mk (s.data.drop n)

def padStart2 (s : String) : String :=
  String.mk (List.replicate (2 - s.length) '0') ++ s

def generateMachineId (machineTypeId : String) (machines : List Machine) : String :=
  let machinesInType := machines.filter (fun m => m.machine_type_id = machineTypeId)
  let maxMachineNum := machinesInType.foldl
    (fun mx m =>
      match parseIntJS (dropStr m.id 4) with
      | some n => if n > mx then n else mx
      | none => mx) 0
  machineTypeId ++ "M" ++ padStart2 (toString (maxMachineNum + 1))

/-- The spec-side allocator, stated from the words of the spec (refinement
comparison for the code-side generateMachineId): scan existing identifiers
sharing the relevant prefix, parse the trailing numeric suffix of each
(ignoring non-numeric or malformed ids), take the maximum, add one, and
zero-pad to two digits. -/
def suffixDigits (catId : String) (id : String) : Option Nat :=
  if id.data.take (catId.length + 1) = (catId ++ "M").data ∧
      id.data.drop (catId.length + 1) ≠ [] ∧
      (id.data.drop (catId.length + 1)).all Char.isDigit then
    some (digitsToNat (id.data.drop (catId.length + 1)))
  else
    none

def nextMachineIdSpec (catId : String) (machines : List Machine) : String :=
  let suffixes :=
    (machines.filter (fun m => m.machine_type_id = catId)).filterMap
      (fun m => suffixDigits catId m.id)
  let maxN := suffixes.foldl Nat.max 0
  catId ++ "M" ++ padStart2 (toString (maxN + 1))

example : generateMachineId "C01" [] = "C01M01" := by decide

example :
    generateMachineId "C01" [⟨"C01M01", "C01", MachineStatus.available⟩] = "C01M02" := by
  decide

example :
    generateMachineId "C01" [⟨"C01M99", "C01", MachineStatus.available⟩] = "C01M100" := by
  decide

/-! ## Errors and the Conflict Detector

Modelled from the spec.  The error kinds are the spec's section 7 list; the
Data Store's referential refusal of a category delete (section 3: "deleted
only if no Machine references it") has no named kind in the spec and is
modelled as its own constructor categoryInUse.
-/

inductive EngineError where
  | machineUnavailable
  | slotConflict (bookingId : String) (startTime : Nat) (endTime : Nat)
  | leadTimeViolation
  | insufficientTokens
  | ledgerInvariantViolation
  | identifierSpaceExhausted
  | invalidTransition
  | notFound
  | unauthorized
  | transientFailure
  | categoryInUse
deriving DecidableEq, Repr

/-- Modelled from the spec: lead-time configuration for the mode rules of
section 4.3 rule 3 — the fixed weekly cutoff, the week length, the month
length and the configurable number of months ahead, all in slot units. -/
structure LeadTimeConfig where
  weekLen : Nat
  cutoff : Nat
  monthLen : Nat
  maxMonthsAhead : Nat
deriving DecidableEq, Repr

/-- A booking in status pending or approved occupies its slot (spec
section 3 invariant and section 4.3 rule 2). -/
def isActive (b : Booking) : Bool :=
  b.status = BookingStatus.pending ∨ b.status = BookingStatus.approved

/-- Positive-length overlap of the half-open intervals: touching intervals
(end of one equal to start of the next) do not overlap. -/
def overlaps (s1 e1 s2 e2 : Nat) : Bool :=
  max s1 s2 < min e1 e2

/-- Modelled from the spec: the mode-specific lead-time rule of section 4.3
rule 3.  weekly-planning requires the interval to start in a later week and
the submission to occur before the weekly cutoff; same-week-exceptional
requires a non-empty justification; monthly-provisional allows booking up to
maxMonthsAhead months ahead. -/
def leadTimeOk (cfg : LeadTimeConfig) (now : Nat) (startTime : Nat)
    (mode : BookingMode) (justification : String) : Bool :=
  match mode with
  | BookingMode.weeklyPlanning =>
      now / cfg.weekLen < startTime / cfg.weekLen ∧ now % cfg.weekLen < cfg.cutoff
  | BookingMode.sameWeekExceptional => justification ≠ ""
  | BookingMode.monthlyProvisional =>
      startTime ≤ now + cfg.maxMonthsAhead * cfg.monthLen

/-- Modelled from the spec: the Booking Conflict Detector of section 4.3.
Rules evaluated in order: (1) the machine must be available, signalling
machineUnavailable otherwise; (2) the proposal must not overlap any existing
booking in status pending or approved for that machine, signalling
slotConflict carrying the conflicting booking's identifier and interval;
(3) the mode-specific lead-time rule, signalling leadTimeViolation.
Returns none when there is no conflict. -/
def checkConflict (cfg : LeadTimeConfig) (now : Nat) (m : Machine)
    (startTime endTime : Nat) (mode : BookingMode) (justification : String)
    (existing : List Booking) : Option EngineError :=
  if m.status ≠ MachineStatus.available then
    some EngineError.machineUnavailable
  else
    match existing.find? (fun b => isActive b ∧ overlaps startTime endTime b.startTime b.endTime) with
    | some b => some (EngineError.slotConflict b.id b.startTime b.endTime)
    | none =>
        if leadTimeOk cfg now startTime mode justification then none
        else some EngineError.leadTimeViolation

/-! ## Token Ledger

Modelled from the spec, section 4.2.  Balances are nonnegative integers.
reserve increments consumed by cost iff remaining is at least cost and fails
with insufficientTokens otherwise; release decrements consumed by the
reserved cost, floored so consumed never goes negative, refunding the same
amount to remaining; grant increases given and remaining by delta.
-/

def canAfford (u : User) (cost : Nat) : Bool :=
  cost ≤ u.tokens_remaining

def reserve (u : User) (cost : Nat) : Except EngineError User :=
  if canAfford u cost then
    Except.ok { u with
      tokens_consumed := u.tokens_consumed + cost,
      tokens_remaining := u.tokens_remaining - cost }
  else
    Except.error EngineError.insufficientTokens

def release (u : User) (cost : Nat) : User :=
  let refund := min cost u.tokens_consumed
  { u with
    tokens_consumed := u.tokens_consumed - refund,
    tokens_remaining := u.tokens_remaining + refund }

def grant (u : User) (delta : Nat) : User :=
  { u with
    tokens_given := u.tokens_given + delta,
    tokens_remaining := u.tokens_remaining + delta }

def isAdmin (r : Role) : Bool :=
  r = Role.facilityAdmin ∨ r = Role.institutionAdmin

/-! ## Booking Lifecycle Manager

Modelled from the spec, section 4.4, over an engine state holding the four
record collections and the append-only audit trail.  Each operation returns
either a whole new state or an error; the pair-returning run functions make
the all-or-nothing discipline of section 5 explicit: on any error the state
is returned unchanged.
-/

structure EngineState where
  machineTypes : List MachineType
  machines : List Machine
  users : List User
  bookings : List Booking
  audit : List AuditEntry
deriving DecidableEq, Repr

structure BookingRequest where
  user_id : String
  machine_id : String
  startTime : Nat
  endTime : Nat
  mode : BookingMode
  justification : String
deriving DecidableEq, Repr

/-- Cost computed at creation time: category rate times interval duration
(spec section 4.4, create). -/
def bookingCost (mt : MachineType) (req : BookingRequest) : Nat :=
  mt.cost_per_slot * (req.endTime - req.startTime)

def updateUserIn (users : List User) (uid : String) (u2 : User) : List User :=
  users.map (fun v => if v.id = uid then u2 else v)

def setBookingStatus (bookings : List Booking) (id : String) (st : BookingStatus) : List Booking :=
  bookings.map (fun b => if b.id = id then { b with status := st } else b)

/-- Modelled from the spec: create (section 4.4) — resolve the user and the
machine, run the Conflict Detector on the machine's existing bookings,
compute the cost from the category rate and the interval duration, run the
Ledger reserve, and on success persist a new Booking in pending plus an
audit entry.  The booking id newId is assigned by the Data Store and passed
in; on any failure nothing is persisted. -/
def createBooking (cfg : LeadTimeConfig) (now : Nat) (newId : String)
    (st : EngineState) (req : BookingRequest) : Except EngineError EngineState :=
  match st.users.find? (fun u => u.id = req.user_id) with
  | none => Except.error EngineError.notFound
  | some u =>
    match st.machines.find? (fun m => m.id = req.machine_id) with
    | none => Except.error EngineError.notFound
    | some m =>
      match checkConflict cfg now m req.startTime req.endTime req.mode req.justification
          (st.bookings.filter (fun b => b.machine_id = m.id)) with
      | some e => Except.error e
      | none =>
        match st.machineTypes.find? (fun t => t.id = m.machine_type_id) with
        | none => Except.error EngineError.notFound
        | some mt =>
          match reserve u (bookingCost mt req) with
          | Except.error e => Except.error e
          | Except.ok u2 =>
            Except.ok { st with
              users := updateUserIn st.users u.id u2,
              bookings :=
                { id := newId, user_id := req.user_id, machine_id := req.machine_id,
                  startTime := req.startTime, endTime := req.endTime, mode := req.mode,
                  status := BookingStatus.pending, cost := bookingCost mt req, created_at := now,
                  justification := req.justification } :: st.bookings,
              audit := { actor := req.user_id, action := "create", targetId := newId } :: st.audit }

/-- The create operation with the atomic all-or-nothing discipline made
explicit: the returned state is the new state on success and the unchanged
input state on any failure. -/
def runCreate (cfg : LeadTimeConfig) (now : Nat) (newId : String)
    (st : EngineState) (req : BookingRequest) : EngineState × Option EngineError :=
  match createBooking cfg now newId st req with
  | Except.ok st2 => (st2, none)
  | Except.error e => (st, some e)

/-- Modelled from the spec: approve (section 4.4) — requires an actor with
role facility-admin or institution-admin, then requires status pending;
transitions to approved with no Ledger change and an audit entry. -/
def runApprove (st : EngineState) (actor : User) (bookingId : String) :
    EngineState × Option EngineError :=
  match st.bookings.find? (fun b => b.id = bookingId) with
  | none => (st, some EngineError.notFound)
  | some b =>
    if ¬ isAdmin actor.role then (st, some EngineError.unauthorized)
    else if b.status ≠ BookingStatus.pending then (st, some EngineError.invalidTransition)
    else
      ({ st with
          bookings := setBookingStatus st.bookings bookingId BookingStatus.approved,
          audit := { actor := actor.id, action := "approve", targetId := bookingId } :: st.audit },
        none)

/-- Modelled from the spec: reject (section 4.4) — admin only, requires
pending, transitions to rejected and releases the reserved cost back to the
owner through the Ledger, with an audit entry including the reason. -/
def runReject (st : EngineState) (actor : User) (bookingId : String)
    (reason : String) : EngineState × Option EngineError :=
  match st.bookings.find? (fun b => b.id = bookingId) with
  | none => (st, some EngineError.notFound)
  | some b =>
    if ¬ isAdmin actor.role then (st, some EngineError.unauthorized)
    else if b.status ≠ BookingStatus.pending then (st, some EngineError.invalidTransition)
    else
      match st.users.find? (fun u => u.id = b.user_id) with
      | none => (st, some EngineError.notFound)
      | some owner =>
        ({ st with
            users := updateUserIn st.users owner.id (release owner b.cost),
            bookings := setBookingStatus st.bookings bookingId BookingStatus.rejected,
            audit := { actor := actor.id, action := "reject " ++ reason, targetId := bookingId }
              :: st.audit },
          none)

/-- Modelled from the spec: cancel (section 4.4) — requires the actor to be
the owner or an admin, requires status pending or approved, transitions to
cancelled and releases the reserved cost, with an audit entry. -/
def runCancel (st : EngineState) (actor : User) (bookingId : String) :
    EngineState × Option EngineError :=
  match st.bookings.find? (fun b => b.id = bookingId) with
  | none => (st, some EngineError.notFound)
  | some b =>
    if ¬ (actor.id = b.user_id ∨ isAdmin actor.role) then (st, some EngineError.unauthorized)
    else if ¬ (b.status = BookingStatus.pending ∨ b.status = BookingStatus.approved) then
      (st, some EngineError.invalidTransition)
    else
      match st.users.find? (fun u => u.id = b.user_id) with
      | none => (st, some EngineError.notFound)
      | some owner =>
        ({ st with
            users := updateUserIn st.users owner.id (release owner b.cost),
            bookings := setBookingStatus st.bookings bookingId BookingStatus.cancelled,
            audit := { actor := actor.id, action := "cancel", targetId := bookingId } :: st.audit },
          none)

/-- Modelled from the spec: complete (section 4.4) — system or
admin-triggered transition for approved bookings; no Ledger change. -/
def runComplete (st : EngineState) (bookingId : String) :
    EngineState × Option EngineError :=
  match st.bookings.find? (fun b => b.id = bookingId) with
  | none => (st, some EngineError.notFound)
  | some b =>
    if b.status ≠ BookingStatus.approved then (st, some EngineError.invalidTransition)
    else
      ({ st with
          bookings := setBookingStatus st.bookings bookingId BookingStatus.completed,
          audit := { actor := "system", action := "complete", targetId := bookingId } :: st.audit },
        none)

/-- Modelled from the spec: grant (section 4.2) — admin-only; increases the
user's given by delta, and remaining correspondingly. -/
def runGrant (st : EngineState) (actor : User) (userId : String) (delta : Nat) :
    EngineState × Option EngineError :=
  if ¬ isAdmin actor.role then (st, some EngineError.unauthorized)
  else
    match st.users.find? (fun u => u.id = userId) with
    | none => (st, some EngineError.notFound)
    | some u =>
      ({ st with
          users := updateUserIn st.users u.id (grant u delta),
          audit := { actor := actor.id, action := "grant", targetId := userId } :: st.audit },
        none)

/-- The Ledger-affecting operations of the Lifecycle Manager as one
operation type, for reasoning about arbitrary operation sequences. -/
inductive Op where
  | create (newId : String) (now : Nat) (req : BookingRequest)
  | approve (actor : User) (bookingId : String)
  | reject (actor : User) (bookingId : String) (reason : String)
  | cancel (actor : User) (bookingId : String)
  | complete (bookingId : String)
  | grantTokens (actor : User) (userId : String) (delta : Nat)

def runOp (cfg : LeadTimeConfig) (st : EngineState) (op : Op) :
    EngineState × Option EngineError :=
  match op with
  | Op.create newId now req => runCreate cfg now newId st req
  | Op.approve actor bookingId => runApprove st actor bookingId
  | Op.reject actor bookingId reason => runReject st actor bookingId reason
  | Op.cancel actor bookingId => runCancel st actor bookingId
  | Op.complete bookingId => runComplete st bookingId
  | Op.grantTokens actor userId delta => runGrant st actor userId delta

/-- Apply a sequence of operations, keeping the state of each step
(failed operations leave the state unchanged). -/
def applyOps (cfg : LeadTimeConfig) (st : EngineState) : List Op → EngineState
  | [] => st
  | op :: ops => applyOps cfg (runOp cfg st op).1 ops

/-- Modelled from the spec: deletion of a machine category (sections 3 and
4.6 behaviour of the Data Store's referential constraint, surfaced through
deleteMachineType in MachineContext.tsx, which keeps the local snapshot
unchanged whenever the Data Store refuses the delete): the delete is blocked
while any Machine references the category, and otherwise removes it. -/
def deleteMachineType (st : EngineState) (typeId : String) :
    EngineState × Option EngineError :=
  if st.machines.any (fun m => m.machine_type_id = typeId) then
    (st, some EngineError.categoryInUse)
  else
    ({ st with machineTypes := st.machineTypes.filter (fun t => ¬ t.id = typeId) }, none)

/-! ## State Synchronizer (BookingContext.tsx and MachineContext.tsx)

A Data Store read either returns rows, returns an error value (the supabase
error field, handled by an early return or a throw in the source), or throws
(a rejected promise, handled by the catch block).  The client-local snapshot
is the component state held in useState; loadBookings and loadData embed the
source functions of the same names as functions from the read outcome and
the previous snapshot to the next snapshot.  Row ordering is performed by
the Data Store (the order clauses of the queries), so the delivered list is
taken as-is.
-/

inductive QueryResult (α : Type) where
  | ok (data : α)
  | errorResult (msg : String)
  | thrown (msg : String)
deriving DecidableEq, Repr

structure BookingClientState where
  bookings : List Booking
  isLoading : Bool
deriving DecidableEq, Repr

/-- Embeds loadBookings (BookingContext.tsx lines 31-50): set the loading
flag, query all bookings; an error result logs and returns early, a thrown
error is caught and logged, and in both cases the previous bookings are
kept; on success the snapshot is replaced; the finally block always clears
the loading flag. -/
def loadBookings (res : QueryResult (List Booking)) (s : BookingClientState) :
    BookingClientState :=
  match res with
  | QueryResult.ok data => { bookings := data, isLoading := false }
  | QueryResult.errorResult _ => { s with isLoading := false }
  | QueryResult.thrown _ => { s with isLoading := false }

/-- A Change Feed event as delivered to the subscription callbacks: the
postgres_changes payload with its event type and the (unreliable) row
images. -/
structure ChangePayload where
  eventType : String
  table : String
  newRow : Option Booking
  oldRow : Option Booking
deriving DecidableEq, Repr

/-- Embeds the bookings_changes subscription handler (BookingContext.tsx
lines 57-66): the payload is logged and loadBookings is re-run. -/
def onBookingsChange (payload : ChangePayload) (res : QueryResult (List Booking))
    (s : BookingClientState) : BookingClientState :=
  loadBookings res s

/-- Embeds getBookingsByUser (BookingContext.tsx lines 136-153): an error
result is thrown, and any thrown error is caught, logged and turned into the
empty list; on success the rows are returned. -/
def getBookingsByUser (userId : String) (res : QueryResult (List Booking)) :
    List Booking :=
  match res with
  | QueryResult.ok data => data
  | QueryResult.errorResult _ => []
  | QueryResult.thrown _ => []

/-- Embeds getBookingsByMachine (BookingContext.tsx lines 155-172), same
shape as getBookingsByUser with the machine filter. -/
def getBookingsByMachine (machineId : String) (res : QueryResult (List Booking)) :
    List Booking :=
  match res with
  | QueryResult.ok data => data
  | QueryResult.errorResult _ => []
  | QueryResult.thrown _ => []

structure MachineClientState where
  machineTypes : List MachineType
  machines : List Machine
  auditLogs : List AuditEntry
  isLoading : Bool
deriving DecidableEq, Repr

def applyQuery {α : Type} (res : QueryResult α) (old : α) : α :=
  match res with
  | QueryResult.ok data => data
  | _ => old

/-- Embeds loadData (MachineContext.tsx lines 38-83): the three queries run
in order inside one try block; a returned error value logs and keeps that
collection's previous value while the later queries still run, a thrown
error aborts the remaining queries via the catch block, and the finally
block always clears the loading flag. -/
def loadData (resTypes : QueryResult (List MachineType))
    (resMachines : QueryResult (List Machine))
    (resAudit : QueryResult (List AuditEntry))
    (s : MachineClientState) : MachineClientState :=
  match resTypes with
  | QueryResult.thrown _ => { s with isLoading := false }
  | _ =>
    match resMachines with
    | QueryResult.thrown _ =>
        { s with machineTypes := applyQuery resTypes s.machineTypes, isLoading := false }
    | _ =>
      match resAudit with
      | QueryResult.thrown _ =>
          { s with
            machineTypes := applyQuery resTypes s.machineTypes,
            machines := applyQuery resMachines s.machines,
            isLoading := false }
      | _ =>
          { machineTypes := applyQuery resTypes s.machineTypes,
            machines := applyQuery resMachines s.machines,
            auditLogs := applyQuery resAudit s.auditLogs,
            isLoading := false }

/-- Embeds the machines_changes, machine_types_changes and
audit_logs_changes subscription handlers (MachineContext.tsx lines 90-112):
each ignores its payload and re-runs loadData. -/
def onMachineDataChange (payload : ChangePayload)
    (resTypes : QueryResult (List MachineType))
    (resMachines : QueryResult (List Machine))
    (resAudit : QueryResult (List AuditEntry))
    (s : MachineClientState) : MachineClientState :=
  loadData resTypes resMachines resAudit s

/-! ## Remaining definitions used by the theorems and their witnesses -/

/-- The Ledger invariant of spec section 3: remaining = given − consumed,
stated additively so that it is meaningful over Nat. -/
def UserInv (u : User) : Prop :=
  u.tokens_remaining + u.tokens_consumed = u.tokens_given

instance (u : User) : Decidable (UserInv u) := by
  unfold UserInv; infer_instance

/-- Terminal booking statuses of spec section 3: rejected, cancelled,
completed. -/
def isTerminal (s : BookingStatus) : Bool :=
  s = BookingStatus.rejected ∨ s = BookingStatus.cancelled ∨ s = BookingStatus.completed

/-- Sample data for witnesses: category C01 at 2 tokens per slot, machine
C01M01, a requester with 10 tokens and an admin.  Times are hours; the
lead-time configuration uses 168-hour weeks with a cutoff at hour 120,
720-hour months, 3 months ahead. -/
def printerType : MachineType :=
  { id := "C01", name := "printer", cost_per_slot := 2, tags := [] }

def machineC01M01 : Machine :=
  { id := "C01M01", machine_type_id := "C01", status := MachineStatus.available }

def machineC01M01Down : Machine :=
  { id := "C01M01", machine_type_id := "C01", status := MachineStatus.maintenance }

def requester1 : User :=
  { id := "u1", role := Role.requester, tokens_given := 10, tokens_consumed := 0,
    tokens_remaining := 10 }

def admin1 : User :=
  { id := "a1", role := Role.facilityAdmin, tokens_given := 0, tokens_consumed := 0,
    tokens_remaining := 0 }

def bookingB1 : Booking :=
  { id := "b1", user_id := "u1", machine_id := "C01M01", startTime := 177, endTime := 179,
    mode := BookingMode.weeklyPlanning, status := BookingStatus.pending, cost := 4,
    created_at := 0, justification := "" }

def baseCfg : LeadTimeConfig :=
  { weekLen := 168, cutoff := 120, monthLen := 720, maxMonthsAhead := 3 }

def cleanState : EngineState :=
  { machineTypes := [printerType], machines := [machineC01M01],
    users := [requester1, admin1], bookings := [], audit := [] }

def bookedState : EngineState :=
  { machineTypes := [printerType], machines := [machineC01M01],
    users := [requester1, admin1], bookings := [bookingB1], audit := [] }

def downState : EngineState :=
  { machineTypes := [printerType], machines := [machineC01M01Down],
    users := [requester1, admin1], bookings := [bookingB1], audit := [] }

def reqFirst : BookingRequest :=
  { user_id := "u1", machine_id := "C01M01", startTime := 177, endTime := 179,
    mode := BookingMode.weeklyPlanning, justification := "" }

def reqOverlap : BookingRequest :=
  { user_id := "u1", machine_id := "C01M01", startTime := 178, endTime := 180,
    mode := BookingMode.sameWeekExceptional, justification := "urgent" }

def rejectedB1 : Booking :=
  { bookingB1 with status := BookingStatus.rejected }

def terminalState : EngineState :=
  { machineTypes := [printerType], machines := [machineC01M01],
    users := [requester1, admin1], bookings := [rejectedB1], audit := [] }

/-- A machine id is well formed for its category when it is the category
code followed by M and a nonempty run of digits; otherwise it must be
ignored by both the code-side and the spec-side allocator (malformed). -/
def WellFormedId (catId : String) (m : Machine) : Prop :=
  (∃ ds : List Char, ds ≠ [] ∧ ds.all Char.isDigit = true ∧
    m.id = catId ++ "M" ++ String.mk ds) ∨
  (parseIntJS (dropStr m.id 4) = none ∧ suffixDigits catId m.id = none)

/-- A machine list exercising both well-formed and malformed ids plus a
foreign category, for the allocator witness. -/
def wmachines : List Machine :=
  [⟨"C01M01", "C01", MachineStatus.available⟩,
   ⟨"C01Mxx", "C01", MachineStatus.available⟩,
   ⟨"B99", "OTHER", MachineStatus.available⟩]

/-- An operation sequence for the Ledger-invariant witness: create, reject
(refund) and grant. -/
def wops : List Op :=
  [Op.create "b1" 0 reqFirst, Op.reject admin1 "b1" "maintenance window",
   Op.grantTokens admin1 "u1" 5]

/-! ## Theorems -/

/-- Claim C8: every Change Feed event is handled only by re-running the full
snapshot refresh from the Data Store: the handler's result never depends on
any field of the event payload and equals the full refresh, for the bookings
subscription and for the three machine-side subscriptions alike. -/
theorem feed_events_only_trigger_refresh :
    ∀ (p q : ChangePayload) (res : QueryResult (List Booking)) (s : BookingClientState)
      (rt : QueryResult (List MachineType)) (rm : QueryResult (List Machine))
      (ra : QueryResult (List AuditEntry)) (ms : MachineClientState),
      onBookingsChange p res s = loadBookings res s ∧
      onBookingsChange p res s = onBookingsChange q res s ∧
      onMachineDataChange p rt rm ra ms = loadData rt rm ra ms ∧
      onMachineDataChange p rt rm ra ms = onMachineDataChange q rt rm ra ms := by
  intro p q res s rt rm ra ms
  exact ⟨rfl, rfl, rfl, rfl⟩

/-- Claim C9: when the Data Store query fails (error result) or throws,
getBookingsByUser and getBookingsByMachine return the empty list instead of
propagating the error. -/
theorem failed_queries_return_empty :
    ∀ (userId machineId msg : String),
      getBookingsByUser userId (QueryResult.errorResult msg) = [] ∧
      getBookingsByUser userId (QueryResult.thrown msg) = [] ∧
      getBookingsByMachine machineId (QueryResult.errorResult msg) = [] ∧
      getBookingsByMachine machineId (QueryResult.thrown msg) = [] := by
  intro userId machineId msg
  exact ⟨rfl, rfl, rfl, rfl⟩

/-- Claim C10: a failed snapshot refresh (error result or thrown read)
leaves the client-local bookings snapshot exactly as it was and only resets
the loading flag; the snapshot is never cleared or partially overwritten. -/
theorem failed_refresh_keeps_snapshot :
    ∀ (s : BookingClientState) (msg : String),
      loadBookings (QueryResult.errorResult msg) s =
        { bookings := s.bookings, isLoading := false } ∧
      loadBookings (QueryResult.thrown msg) s =
        { bookings := s.bookings, isLoading := false } := by
  intro s msg
  exact ⟨rfl, rfl⟩

/-- Claim C6 (counterexample): with category C01 already holding machine
C01M99 (maximum numeric suffix 99), generateMachineId does not fail — it
returns C01M100, an identifier whose numeric suffix is three digits wide,
so the claimed IdentifierSpaceExhausted error does not occur. -/
theorem allocator_overflow_widens :
    generateMachineId "C01" [⟨"C01M99", "C01", MachineStatus.available⟩] = "C01M100" ∧
    (dropStr (generateMachineId "C01" [⟨"C01M99", "C01", MachineStatus.available⟩]) 4).length = 3 := by
  decide

/-- Claim C6 (amended): for a category whose maximum numeric suffix is 99,
generateMachineId silently widens the suffix beyond two digits instead of
failing: the next identifier after C01M99 is C01M100 (padStart never
truncates), and no error value exists in this code path. -/
theorem allocator_overflow_result :
    generateMachineId "C01" [⟨"C01M99", "C01", MachineStatus.available⟩] =
      "C01" ++ "M" ++ "100" := by
  decide

/-- Claim C7: deleting a machine category succeeds exactly when no Machine
references it; while at least one machine belongs to the category the
delete is blocked with the state unchanged, and when none does the category
is removed. -/
theorem category_delete_blocked_while_referenced :
    ∀ (st : EngineState) (typeId : String),
      ((∃ m ∈ st.machines, m.machine_type_id = typeId) →
        deleteMachineType st typeId = (st, some EngineError.categoryInUse)) ∧
      ((deleteMachineType st typeId).2 = none ↔
        ¬ ∃ m ∈ st.machines, m.machine_type_id = typeId) ∧
      ((¬ ∃ m ∈ st.machines, m.machine_type_id = typeId) →
        (deleteMachineType st typeId).1.machineTypes =
          st.machineTypes.filter (fun t => ¬ t.id = typeId)) := by
  intro st typeId
  by_cases h : ∃ m ∈ st.machines, m.machine_type_id = typeId
  · have hany : st.machines.any (fun m => m.machine_type_id = typeId) = true := by
      rcases h with ⟨m, hm, hmt⟩
      exact List.any_eq_true.mpr ⟨m, hm, by simp [hmt]⟩
    refine ⟨fun _ => ?_, ?_, fun hc => absurd h hc⟩
    · simp [deleteMachineType, hany]
    · simp [deleteMachineType, hany, h]
  · have hany : st.machines.any (fun m => m.machine_type_id = typeId) = false := by
      rw [List.any_eq_false]
      intro m hm
      simp only [decide_eq_true_eq]
      exact fun hmt => h ⟨m, hm, hmt⟩
    refine ⟨fun hc => absurd hc h, ?_, fun _ => ?_⟩
    · simp [deleteMachineType, hany, h]
    · simp [deleteMachineType, hany]

/-- Witness for claim C7: with machine C01M01 referencing category C01, the
delete of C01 is blocked and the state is unchanged. -/
theorem category_delete_blocked_witness :
    deleteMachineType cleanState "C01" = (cleanState, some EngineError.categoryInUse) :=
  (category_delete_blocked_while_referenced cleanState "C01").1
    ⟨machineC01M01, by decide, by decide⟩

/-- Claim C1 (counterexample): with machine C01M01 in maintenance and an
existing pending booking over [177, 179) on it, the overlapping proposal
[178, 180) fails with machineUnavailable — rule 1 of the Conflict Detector
fires before the overlap rule — not with slotConflict as the claim states
for every machine. -/
theorem conflict_error_on_unavailable_machine :
    isActive bookingB1 = true ∧
    overlaps reqOverlap.startTime reqOverlap.endTime bookingB1.startTime bookingB1.endTime = true ∧
    bookingB1 ∈ downState.bookings ∧
    bookingB1.machine_id = reqOverlap.machine_id ∧
    (runCreate baseCfg 0 "b2" downState reqOverlap).2 = some EngineError.machineUnavailable ∧
    (runCreate baseCfg 0 "b2" downState reqOverlap).2 ≠
      some (EngineError.slotConflict bookingB1.id bookingB1.startTime bookingB1.endTime) := by
  decide

/-- Claim C1 (amended): for every machine in status available, a proposed
booking whose interval overlaps with positive length the interval of an
existing pending or approved booking for that machine fails with
slotConflict reporting a conflicting booking's identifier and interval, and
the state — bookings and token balances — is returned unchanged. -/
theorem slot_conflict_reported
    (cfg : LeadTimeConfig) (now : Nat) (newId : String) (st : EngineState)
    (req : BookingRequest) (m : Machine) (b : Booking)
    (hm : st.machines.find? (fun x => x.id = req.machine_id) = some m)
    (havail : m.status = MachineStatus.available)
    (hu : (st.users.find? (fun u => u.id = req.user_id)).isSome)
    (hb : b ∈ st.bookings) (hbm : b.machine_id = req.machine_id)
    (hact : isActive b = true)
    (hov : overlaps req.startTime req.endTime b.startTime b.endTime = true) :
    ∃ cb ∈ st.bookings, cb.machine_id = req.machine_id ∧ isActive cb = true ∧
      overlaps req.startTime req.endTime cb.startTime cb.endTime = true ∧
      runCreate cfg now newId st req =
        (st, some (EngineError.slotConflict cb.id cb.startTime cb.endTime)) := by
  obtain ⟨u, hu2⟩ := Option.isSome_iff_exists.mp hu
  have hmid : m.id = req.machine_id := by
    have h := List.find?_some hm
    simpa using h
  have hbf : b ∈ st.bookings.filter (fun x => x.machine_id = m.id) :=
    List.mem_filter.mpr ⟨hb, by simp [hbm, hmid]⟩
  have hfs : ((st.bookings.filter (fun x => x.machine_id = m.id)).find?
      (fun bk => isActive bk ∧ overlaps req.startTime req.endTime bk.startTime bk.endTime)).isSome := by
    rw [List.find?_isSome]
    exact ⟨b, hbf, by simp [hact, hov]⟩
  obtain ⟨cb, hcb⟩ := Option.isSome_iff_exists.mp hfs
  have hcbP := List.find?_some hcb
  have hcbm := List.mem_of_find?_eq_some hcb
  have hcbmem : cb ∈ st.bookings := (List.mem_filter.mp hcbm).1
  have hcbmid : cb.machine_id = req.machine_id := by
    have h := (List.mem_filter.mp hcbm).2
    rw [← hmid]
    simpa using h
  simp only [decide_eq_true_eq, Bool.decide_and, Bool.and_eq_true, decide_eq_true_eq] at hcbP
  refine ⟨cb, hcbmem, hcbmid, hcbP.1, hcbP.2, ?_⟩
  have hcc : checkConflict cfg now m req.startTime req.endTime req.mode req.justification
      (st.bookings.filter (fun x => x.machine_id = m.id)) =
      some (EngineError.slotConflict cb.id cb.startTime cb.endTime) := by
    unfold checkConflict
    rw [hcb]
    simp [havail]
  unfold runCreate createBooking
  simp only [hu2, hm, hcc]

/-- Witness for claim C1 (amended): on the available machine C01M01 with
pending booking b1 over [177, 179), the overlapping proposal [178, 180) is
rejected with slotConflict reporting b1 and its interval, state unchanged. -/
theorem slot_conflict_reported_witness :
    ∃ cb ∈ bookedState.bookings, cb.machine_id = reqOverlap.machine_id ∧ isActive cb = true ∧
      overlaps reqOverlap.startTime reqOverlap.endTime cb.startTime cb.endTime = true ∧
      runCreate baseCfg 0 "b2" bookedState reqOverlap =
        (bookedState, some (EngineError.slotConflict cb.id cb.startTime cb.endTime)) :=
  slot_conflict_reported baseCfg 0 "b2" bookedState reqOverlap machineC01M01 bookingB1
    (by decide) (by decide) (by decide) (by decide) (by decide) (by decide) (by decide)

/-- Updating the user found by an id-keyed find? replaces exactly that
find? result, provided the replacement keeps the same id. -/
theorem find?_updateUserIn (l : List User) (u u2 : User) (uid : String)
    (h : l.find? (fun v => v.id = uid) = some u) (hid : u2.id = uid) :
    (updateUserIn l u.id u2).find? (fun v => v.id = uid) = some u2 := by
  induction l with
  | nil => simp [List.find?] at h
  | cons a l ih =>
    have huid : u.id = uid := by simpa using List.find?_some h
    unfold updateUserIn
    simp only [List.map_cons]
    by_cases ha : a.id = uid
    · have hau : a = u := by
        rw [List.find?_cons_of_pos _ (by simpa using ha)] at h
        exact Option.some.inj h
      subst hau
      rw [if_pos rfl]
      exact List.find?_cons_of_pos _ (by simpa using hid)
    · have h2 : l.find? (fun v => v.id = uid) = some u := by
        rwa [List.find?_cons_of_neg _ (by simpa using ha)] at h
      have hne : ¬ a.id = a.id → False := fun hc => hc rfl
      have hne2 : ¬ a.id = u.id := by rw [huid]; exact ha
      rw [if_neg hne2]
      rw [List.find?_cons_of_neg _ (by simpa using ha)]
      exact ih h2

/-- Claim C2: for a booking creation whose user, machine and category
resolve and whose Conflict Detector check passes, creation increments the
user's consumed by the cost exactly when remaining covers the cost —
persisting the pending booking in the same atomic step — and otherwise
fails with insufficientTokens leaving the state unchanged; and every failed
creation leaves the state unchanged (the booking write and the token
reservation take effect together or not at all). -/
theorem create_reserves_iff_affordable
    (cfg : LeadTimeConfig) (now : Nat) (newId : String) (st : EngineState)
    (req : BookingRequest) (u : User) (m : Machine) (mt : MachineType)
    (hu : st.users.find? (fun x => x.id = req.user_id) = some u)
    (hm : st.machines.find? (fun x => x.id = req.machine_id) = some m)
    (hnc : checkConflict cfg now m req.startTime req.endTime req.mode req.justification
        (st.bookings.filter (fun b => b.machine_id = m.id)) = none)
    (hmt : st.machineTypes.find? (fun t => t.id = m.machine_type_id) = some mt) :
    (bookingCost mt req ≤ u.tokens_remaining →
      (runCreate cfg now newId st req).2 = none ∧
      (runCreate cfg now newId st req).1.users.find? (fun x => x.id = req.user_id) =
        some { u with tokens_consumed := u.tokens_consumed + bookingCost mt req,
                      tokens_remaining := u.tokens_remaining - bookingCost mt req } ∧
      (runCreate cfg now newId st req).1.bookings =
        { id := newId, user_id := req.user_id, machine_id := req.machine_id,
          startTime := req.startTime, endTime := req.endTime, mode := req.mode,
          status := BookingStatus.pending, cost := bookingCost mt req, created_at := now,
          justification := req.justification } :: st.bookings) ∧
    (u.tokens_remaining < bookingCost mt req →
      runCreate cfg now newId st req = (st, some EngineError.insufficientTokens)) ∧
    (∀ e, (runCreate cfg now newId st req).2 = some e → (runCreate cfg now newId st req).1 = st) := by
  have huid : u.id = req.user_id := by simpa using List.find?_some hu
  refine ⟨?_, ?_, ?_⟩
  · intro hcost
    have hres : reserve u (bookingCost mt req) = Except.ok
        { u with tokens_consumed := u.tokens_consumed + bookingCost mt req,
                 tokens_remaining := u.tokens_remaining - bookingCost mt req } := by
      simp [reserve, canAfford, hcost]
    unfold runCreate createBooking
    simp only [hu, hm, hnc, hmt, hres]
    refine ⟨trivial, ?_, trivial⟩
    exact find?_updateUserIn st.users u _ req.user_id hu huid
  · intro hcost
    have hres : reserve u (bookingCost mt req) = Except.error EngineError.insufficientTokens := by
      have hnle : ¬ bookingCost mt req ≤ u.tokens_remaining := Nat.not_le.mpr hcost
      simp [reserve, canAfford, hnle]
    unfold runCreate createBooking
    simp only [hu, hm, hnc, hmt, hres]
  · intro e he
    cases hres : createBooking cfg now newId st req with
    | ok st2 => simp [runCreate, hres] at he
    | error e2 => simp [runCreate, hres]

/-- Witness for claim C2: the scenario-B creation — user with 10 tokens,
cost 4 — succeeds with consumed 4 and remaining 6. -/
theorem create_reserves_iff_affordable_witness :
    (runCreate baseCfg 0 "b1" cleanState reqFirst).2 = none ∧
    (runCreate baseCfg 0 "b1" cleanState reqFirst).1.users.find?
        (fun x => x.id = reqFirst.user_id) =
      some { requester1 with
        tokens_consumed := requester1.tokens_consumed + bookingCost printerType reqFirst,
        tokens_remaining := requester1.tokens_remaining - bookingCost printerType reqFirst } := by
  have h := create_reserves_iff_affordable baseCfg 0 "b1" cleanState reqFirst
    requester1 machineC01M01 printerType (by decide) (by decide) (by decide) (by decide)
  have h2 := h.1 (by decide)
  exact ⟨h2.1, h2.2.1⟩

/-- reserve preserves the Ledger invariant. -/
theorem UserInv_reserve (u u2 : User) (cost : Nat) (h : UserInv u)
    (hr : reserve u cost = Except.ok u2) : UserInv u2 := by
  by_cases hc : cost ≤ u.tokens_remaining
  · have hcond : canAfford u cost = true := by simpa [canAfford] using hc
    unfold reserve at hr
    rw [if_pos hcond] at hr
    have h2 := Except.ok.inj hr
    unfold UserInv at h ⊢
    rw [← h2]
    dsimp only
    omega
  · have hcond : ¬ canAfford u cost = true := by simpa [canAfford] using hc
    unfold reserve at hr
    rw [if_neg hcond] at hr
    exact absurd hr (by simp)

/-- release preserves the Ledger invariant. -/
theorem UserInv_release (u : User) (cost : Nat) (h : UserInv u) :
    UserInv (release u cost) := by
  unfold UserInv at h ⊢
  unfold release
  dsimp only
  have hmin : min cost u.tokens_consumed ≤ u.tokens_consumed := Nat.min_le_right _ _
  omega

/-- grant preserves the Ledger invariant. -/
theorem UserInv_grant (u : User) (d : Nat) (h : UserInv u) : UserInv (grant u d) := by
  unfold UserInv at h ⊢
  unfold grant
  dsimp only
  omega

/-- Replacing one user with an invariant-satisfying value keeps the
all-users invariant. -/
theorem updateUserIn_inv (l : List User) (uid : String) (u2 : User)
    (h : ∀ u ∈ l, UserInv u) (h2 : UserInv u2) :
    ∀ u ∈ updateUserIn l uid u2, UserInv u := by
  intro u hu
  unfold updateUserIn at hu
  rcases List.mem_map.mp hu with ⟨v, hv, heq⟩
  by_cases hid : v.id = uid
  · rw [← heq]
    simp only [hid, if_true]
    exact h2
  · rw [← heq]
    simp only [hid, if_false]
    exact h v hv

/-- Every single Lifecycle/Ledger operation preserves the all-users Ledger
invariant. -/
theorem runOp_users_inv (cfg : LeadTimeConfig) (st : EngineState) (op : Op)
    (h : ∀ u ∈ st.users, UserInv u) :
    ∀ u ∈ (runOp cfg st op).1.users, UserInv u := by
  cases op with
  | create newId now req =>
    simp only [runOp]
    cases hres : createBooking cfg now newId st req with
    | error e => simpa [runCreate, hres] using h
    | ok st2 =>
      have hgoal : ∀ u ∈ st2.users, UserInv u := by
        unfold createBooking at hres
        split at hres
        · exact absurd hres (by simp)
        next u hu =>
          split at hres
          · exact absurd hres (by simp)
          next m hm =>
            split at hres
            · exact absurd hres (by simp)
            · split at hres
              · exact absurd hres (by simp)
              next mt hmt =>
                split at hres
                next e hr => exact absurd hres (by simp)
                next u2 hr =>
                  have hmem := List.mem_of_find?_eq_some hu
                  have hinv2 := UserInv_reserve u u2 (bookingCost mt req) (h u hmem) hr
                  have husers : st2.users = updateUserIn st.users u.id u2 := by
                    have := Except.ok.inj hres
                    rw [← this]
                  rw [husers]
                  exact updateUserIn_inv st.users u.id u2 h hinv2
      simpa [runCreate, hres] using hgoal
  | approve actor bookingId =>
    simp only [runOp, runApprove]
    split
    · simpa using h
    · split
      · simpa using h
      · split
        · simpa using h
        · simpa using h
  | reject actor bookingId reason =>
    simp only [runOp, runReject]
    split
    · simpa using h
    next b hb =>
      split
      · simpa using h
      · split
        · simpa using h
        · split
          · simpa using h
          next owner howner =>
            have hmem := List.mem_of_find?_eq_some howner
            intro u hu
            have hu2 : u ∈ updateUserIn st.users owner.id (release owner b.cost) := by
              simpa using hu
            exact updateUserIn_inv st.users owner.id _ h
              (UserInv_release owner b.cost (h owner hmem)) u hu2
  | cancel actor bookingId =>
    simp only [runOp, runCancel]
    split
    · simpa using h
    next b hb =>
      split
      · simpa using h
      · split
        · simpa using h
        · split
          · simpa using h
          next owner howner =>
            have hmem := List.mem_of_find?_eq_some howner
            intro u hu
            have hu2 : u ∈ updateUserIn st.users owner.id (release owner b.cost) := by
              simpa using hu
            exact updateUserIn_inv st.users owner.id _ h
              (UserInv_release owner b.cost (h owner hmem)) u hu2
  | complete bookingId =>
    simp only [runOp, runComplete]
    split
    · simpa using h
    · split
      · simpa using h
      · simpa using h
  | grantTokens actor userId delta =>
    simp only [runOp, runGrant]
    split
    · simpa using h
    · split
      · simpa using h
      next u2 hu2 =>
        have hmem := List.mem_of_find?_eq_some hu2
        intro u hu
        have hu3 : u ∈ updateUserIn st.users u2.id (grant u2 delta) := by simpa using hu
        exact updateUserIn_inv st.users u2.id _ h
          (UserInv_grant u2 delta (h u2 hmem)) u hu3

/-- Claim C3: after every sequence of Ledger-affecting operations — booking
create, approve, reject, cancel, complete and token grant — the equation
remaining = given − consumed (stated additively) holds for every user,
provided it held initially. -/
theorem ledger_invariant_preserved (cfg : LeadTimeConfig) (ops : List Op)
    (st : EngineState) (h : ∀ u ∈ st.users, UserInv u) :
    ∀ u ∈ (applyOps cfg st ops).users, UserInv u := by
  induction ops generalizing st with
  | nil => simpa [applyOps] using h
  | cons op ops ih =>
    simp only [applyOps]
    exact ih _ (runOp_users_inv cfg st op h)

/-- Witness for claim C3: after a create, a reject and a grant applied to
the sample state, the first user still satisfies remaining = given −
consumed. -/
theorem ledger_invariant_preserved_witness :
    UserInv ((applyOps baseCfg cleanState wops).users.getD 0 admin1) :=
  ledger_invariant_preserved baseCfg wops cleanState (by decide)
    ((applyOps baseCfg cleanState wops).users.getD 0 admin1) (by decide)

/-- Claim C4: a booking in a terminal status (rejected, cancelled,
completed) is never changed by any lifecycle operation — each returns the
state unchanged with some error — and, for an authorized actor, any
attempted transition outside the state machine pending to
approved/rejected/cancelled and approved to cancelled/completed fails with
invalidTransition, leaving the state unchanged. -/
theorem terminal_statuses_frozen
    (st : EngineState) (actor : User) (reason bookingId : String) (b : Booking)
    (hb : st.bookings.find? (fun x => x.id = bookingId) = some b) :
    (isTerminal b.status = true →
      (runApprove st actor bookingId).1 = st ∧
      ((runApprove st actor bookingId).2).isSome = true ∧
      (runReject st actor bookingId reason).1 = st ∧
      ((runReject st actor bookingId reason).2).isSome = true ∧
      (runCancel st actor bookingId).1 = st ∧
      ((runCancel st actor bookingId).2).isSome = true ∧
      (runComplete st bookingId).1 = st ∧
      ((runComplete st bookingId).2).isSome = true) ∧
    (isAdmin actor.role = true → b.status ≠ BookingStatus.pending →
      runApprove st actor bookingId = (st, some EngineError.invalidTransition) ∧
      runReject st actor bookingId reason = (st, some EngineError.invalidTransition)) ∧
    ((actor.id = b.user_id ∨ isAdmin actor.role = true) →
      ¬ (b.status = BookingStatus.pending ∨ b.status = BookingStatus.approved) →
      runCancel st actor bookingId = (st, some EngineError.invalidTransition)) ∧
    (b.status ≠ BookingStatus.approved →
      runComplete st bookingId = (st, some EngineError.invalidTransition)) := by
  refine ⟨?_, ?_, ?_, ?_⟩
  · intro hterm
    have hnp : b.status ≠ BookingStatus.pending := by
      intro hEq
      rw [hEq] at hterm
      simp [isTerminal] at hterm
    have hna : b.status ≠ BookingStatus.approved := by
      intro hEq
      rw [hEq] at hterm
      simp [isTerminal] at hterm
    have happrove : runApprove st actor bookingId = (st, some EngineError.unauthorized) ∨
        runApprove st actor bookingId = (st, some EngineError.invalidTransition) := by
      by_cases hadm : isAdmin actor.role = true
      · right; simp [runApprove, hb, hadm, hnp]
      · left; simp [runApprove, hb, hadm]
    have hreject : runReject st actor bookingId reason = (st, some EngineError.unauthorized) ∨
        runReject st actor bookingId reason = (st, some EngineError.invalidTransition) := by
      by_cases hadm : isAdmin actor.role = true
      · right; simp [runReject, hb, hadm, hnp]
      · left; simp [runReject, hb, hadm]
    have hcancel : runCancel st actor bookingId = (st, some EngineError.unauthorized) ∨
        runCancel st actor bookingId = (st, some EngineError.invalidTransition) := by
      by_cases hown : actor.id = b.user_id ∨ isAdmin actor.role = true
      · right; simp [runCancel, hb, hown, hnp, hna]
      · left; simp [runCancel, hb, hown]
    have hcomplete : runComplete st bookingId = (st, some EngineError.invalidTransition) := by
      simp [runComplete, hb, hna]
    refine ⟨?_, ?_, ?_, ?_, ?_, ?_, ?_, ?_⟩
    · rcases happrove with h | h <;> simp [h]
    · rcases happrove with h | h <;> simp [h]
    · rcases hreject with h | h <;> simp [h]
    · rcases hreject with h | h <;> simp [h]
    · rcases hcancel with h | h <;> simp [h]
    · rcases hcancel with h | h <;> simp [h]
    · simp [hcomplete]
    · simp [hcomplete]
  · intro hadm hnp
    constructor
    · simp [runApprove, hb, hadm, hnp]
    · simp [runReject, hb, hadm, hnp]
  · intro hown hst
    simp [runCancel, hb, hown, hst]
  · intro hna
    simp [runComplete, hb, hna]

/-- Witness for claim C4: on the rejected booking b1, approve, cancel and
complete all fail with invalidTransition and leave the state unchanged. -/
theorem terminal_statuses_frozen_witness :
    runApprove terminalState admin1 "b1" = (terminalState, some EngineError.invalidTransition) ∧
    runCancel terminalState admin1 "b1" = (terminalState, some EngineError.invalidTransition) ∧
    runComplete terminalState "b1" = (terminalState, some EngineError.invalidTransition) := by
  have h := terminal_statuses_frozen terminalState admin1 "r" "b1" rejectedB1 (by decide)
  exact ⟨(h.2.1 (by decide) (by decide)).1,
    h.2.2.1 (by decide) (by decide),
    h.2.2.2 (by decide)⟩

/-- takeDigits is the identity on all-digit strings. -/
theorem takeDigits_all (ds : List Char) (h : ds.all Char.isDigit = true) :
    takeDigits ds = ds := by
  induction ds with
  | nil => rfl
  | cons c cs ih =>
    rw [List.all_cons, Bool.and_eq_true] at h
    unfold takeDigits
    rw [if_pos h.1, ih h.2]

/-- parseIntJS on a nonempty all-digit string returns its value. -/
theorem parseIntJS_digits (ds : List Char) (hne : ds ≠ [])
    (hd : ds.all Char.isDigit = true) :
    parseIntJS (String.mk ds) = some ((digitsToNat ds : Int)) := by
  cases ds with
  | nil => exact absurd rfl hne
  | cons c rest =>
    have hcdig : c.isDigit = true := by
      rw [List.all_cons, Bool.and_eq_true] at hd
      exact hd.1
    have hns : ¬ c = ' ' := by
      intro hEq; rw [hEq] at hcdig; exact absurd hcdig (by decide)
    have hnm : ¬ c = '-' := by
      intro hEq; rw [hEq] at hcdig; exact absurd hcdig (by decide)
    have hnp : ¬ c = '+' := by
      intro hEq; rw [hEq] at hcdig; exact absurd hcdig (by decide)
    have htd := takeDigits_all (c :: rest) hd
    simp [parseIntJS, List.dropWhile_cons, hns, hnm, hnp, htd]

/-- The spec-side suffix parse on a well-formed id returns the digits'
value. -/
theorem suffixDigits_wellformed (catId : String) (ds : List Char)
    (hne : ds ≠ []) (hd : ds.all Char.isDigit = true) :
    suffixDigits catId (catId ++ "M" ++ String.mk ds) = some (digitsToNat ds) := by
  have hdata : (catId ++ "M" ++ String.mk ds).data = catId.data ++ 'M' :: ds := by
    simp [String.data_append]
  have hm2 : (catId ++ "M").data = catId.data ++ ['M'] := by
    rw [String.data_append]
  have htake : (catId.data ++ 'M' :: ds).take (catId.length + 1) = catId.data ++ ['M'] := by
    show (catId.data ++ 'M' :: ds).take (catId.data.length + 1) = catId.data ++ ['M']
    have h := @List.take_append _ catId.data ('M' :: ds) 1
    simpa using h
  have hdrop : (catId.data ++ 'M' :: ds).drop (catId.length + 1) = ds := by
    show (catId.data ++ 'M' :: ds).drop (catId.data.length + 1) = ds
    rw [← List.drop_drop, List.drop_left]
    rfl
  unfold suffixDigits
  rw [hdata, htake, hdrop, hm2]
  rw [if_pos ⟨rfl, hne, hd⟩]

/-- The code-side parse of a well-formed id (three-character category code)
agrees with the digits' value. -/
theorem parse_drop4 (catId : String) (ds : List Char)
    (hlen : catId.length = 3) (hne : ds ≠ []) (hd : ds.all Char.isDigit = true) :
    parseIntJS (dropStr (catId ++ "M" ++ String.mk ds) 4) = some ((digitsToNat ds : Int)) := by
  have hdata : (catId ++ "M" ++ String.mk ds).data = catId.data ++ 'M' :: ds := by
    simp [String.data_append]
  have hlen3 : catId.data.length = 3 := hlen
  have hdrop : (catId.data ++ 'M' :: ds).drop 4 = ds := by
    have h4 : (4 : Nat) = catId.data.length + 1 := by rw [hlen3]
    rw [h4, ← List.drop_drop, List.drop_left]
    rfl
  unfold dropStr
  rw [hdata, hdrop]
  exact parseIntJS_digits ds hne hd

/-- On ids that are well formed or ignored by both parsers, the code-side
suffix parse equals the spec-side parse (cast to Int). -/
theorem contrib_eq (catId : String) (m : Machine) (hlen : catId.length = 3)
    (hwf : WellFormedId catId m) :
    parseIntJS (dropStr m.id 4) = (suffixDigits catId m.id).map (fun n => (n : Int)) := by
  rcases hwf with ⟨ds, hne, hd, hid⟩ | ⟨h1, h2⟩
  · rw [hid, parse_drop4 catId ds hlen hne hd, suffixDigits_wellformed catId ds hne hd]
    rfl
  · rw [h1, h2]
    rfl

/-- The code-side max-plus accumulation over Int equals the spec-side
Nat.max fold over the parsed suffixes, for any common start value. -/
theorem fold_contrib (catId : String) (L : List Machine)
    (hids : ∀ m ∈ L,
      parseIntJS (dropStr m.id 4) = (suffixDigits catId m.id).map (fun n => (n : Int))) :
    ∀ acc : Nat,
      L.foldl (fun mx m =>
        match parseIntJS (dropStr m.id 4) with
        | some n => if n > mx then n else mx
        | none => mx) ((acc : Nat) : Int) =
      (((L.filterMap (fun m => suffixDigits catId m.id)).foldl Nat.max acc : Nat) : Int) := by
  induction L with
  | nil => intro acc; simp
  | cons m L ih =>
    intro acc
    have hm := hids m (List.mem_cons_self m L)
    have hrest : ∀ m2 ∈ L,
        parseIntJS (dropStr m2.id 4) = (suffixDigits catId m2.id).map (fun n => (n : Int)) :=
      fun m2 hm2 => hids m2 (List.mem_cons_of_mem m hm2)
    cases hs : suffixDigits catId m.id with
    | none =>
      have hpm : parseIntJS (dropStr m.id 4) = none := by rw [hm, hs]; rfl
      simp only [List.foldl_cons, List.filterMap_cons, hpm, hs]
      exact ih hrest acc
    | some n =>
      have hpm : parseIntJS (dropStr m.id 4) = some ((n : Int)) := by rw [hm, hs]; rfl
      simp only [List.foldl_cons, List.filterMap_cons, hpm, hs]
      have hmax : (if ((n : Nat) : Int) > ((acc : Nat) : Int) then ((n : Nat) : Int)
          else ((acc : Nat) : Int)) = ((Nat.max acc n : Nat) : Int) := by
        by_cases hgt : ((n : Nat) : Int) > ((acc : Nat) : Int)
        · rw [if_pos hgt]
          have hle : acc ≤ n := by exact_mod_cast le_of_lt hgt
          have hmx : Nat.max acc n = n := by
            unfold Nat.max
            omega
          rw [hmx]
        · rw [if_neg hgt]
          have hle : n ≤ acc := by exact_mod_cast not_lt.mp hgt
          have hmx : Nat.max acc n = acc := by
            unfold Nat.max
            omega
          rw [hmx]
      rw [hmax]
      exact ih hrest (Nat.max acc n)

/-- Rendering the successor commutes with the Nat-to-Int cast. -/
theorem toString_int_nat_succ (k : Nat) : toString ((k : Int) + 1) = toString (k + 1) := by
  rw [show ((k : Int) + 1) = (((k + 1 : Nat)) : Int) by push_cast; ring]
  rfl

/-- Claim C5: on machine lists whose ids for the category are well formed
(or malformed and hence ignored by both sides), generateMachineId computes
exactly the spec's algorithm — maximum numeric suffix of the category's
machine ids, plus one, zero-padded to two digits — and in particular the
first id for category C01 is C01M01 and the next after it is C01M02. -/
theorem generateMachineId_matches_spec (catId : String) (ms : List Machine)
    (hlen : catId.length = 3)
    (hids : ∀ m ∈ ms, m.machine_type_id = catId → WellFormedId catId m) :
    generateMachineId catId ms = nextMachineIdSpec catId ms ∧
    generateMachineId "C01" [] = "C01M01" ∧
    generateMachineId "C01" [⟨"C01M01", "C01", MachineStatus.available⟩] = "C01M02" := by
  refine ⟨?_, by decide, by decide⟩
  have hL : ∀ m ∈ ms.filter (fun m => m.machine_type_id = catId),
      parseIntJS (dropStr m.id 4) = (suffixDigits catId m.id).map (fun n => (n : Int)) := by
    intro m hm
    have h2 := List.mem_filter.mp hm
    exact contrib_eq catId m hlen (hids m h2.1 (by simpa using h2.2))
  have hfold := fold_contrib catId (ms.filter (fun m => m.machine_type_id = catId)) hL 0
  simp only [generateMachineId, nextMachineIdSpec]
  rw [show (0 : Int) = ((0 : Nat) : Int) from rfl]
  rw [hfold]
  rw [toString_int_nat_succ]

/-- Witness for claim C5: a list holding a well-formed id, a malformed id
in the same category and a machine of another category satisfies the
theorem's hypotheses, and both allocator versions return C01M02. -/
theorem generateMachineId_matches_spec_witness :
    generateMachineId "C01" wmachines = nextMachineIdSpec "C01" wmachines ∧
    generateMachineId "C01" [] = "C01M01" ∧
    generateMachineId "C01" [⟨"C01M01", "C01", MachineStatus.available⟩] = "C01M02" := by
  refine generateMachineId_matches_spec "C01" wmachines (by decide) ?_
  intro m hm hcat
  have hm2 : m = wmachines[0] ∨ m = wmachines[1] ∨ m = wmachines[2] := by
    simpa [wmachines] using hm
  rcases hm2 with rfl | rfl | rfl
  · exact Or.inl ⟨['0', '1'], by decide, by decide, by decide⟩
  · exact Or.inr ⟨by decide, by decide⟩
  · exact absurd hcat (by decide)

/-- Claim C4 (counterexample): an attempted transition out of the terminal
status rejected (approve of the rejected booking b1) by a non-admin actor
fails with unauthorized, not with invalidTransition as the claim states for
any attempted transition outside the state machine; the booking is still
left unchanged. -/
theorem unauthorized_precedes_invalid_transition :
    isTerminal rejectedB1.status = true ∧
    runApprove terminalState requester1 "b1" = (terminalState, some EngineError.unauthorized) ∧
    (runApprove terminalState requester1 "b1").2 ≠ some EngineError.invalidTransition := by
  decide
